import Mathlib

/-!
Verification of the paper-collaboration web application's scoring and
paper-management logic (routes/papers.py, routes/collaborators.py,
models.py).

Modelling conventions:
* Database rows become Lean structures; the database is a record of row
  lists.  Identifiers are `Nat`.
* Python floats are modelled as exact rationals (`ℚ`); the decimal
  literals `0.5`, `0.35`, `0.05`, `0.4`, `0.6`, `1.3` used by the code
  are all exactly representable.
* Python strings are processed through their character lists
  (`String.data`).  `str.lower` is modelled by `Char.toLower`
  (ASCII case mapping, which agrees with Python on ASCII data).
* Loops that `break` on the first hit are embedded as existence tests
  (`List.any`), and counting loops as folds, which is extensionally what
  the Python loops compute.
-/

attribute [local semireducible] Rat.mul Rat.inv Rat.add Rat.sub Rat.ofScientific

/-- Python whitespace for `str.split()` / `str.strip()`. -/
def isPyWs (c : Char) : Bool :=
  c = ' ' || c = '\t' || c = '\n' || c = '\r' || c = '\x0b' || c = '\x0c'

/-- Python `s.split(sep)` for a one-character separator, on char lists:
splits at every occurrence, keeping empty pieces (`"".split(',') = [""]`). -/
def splitOnPred (p : Char → Bool) : List Char → List (List Char)
  | [] => [[]]
  | x :: xs =>
    let r := splitOnPred p xs
    if p x then [] :: r else (x :: r.headD []) :: r.tail

/-- Python `s.strip()`: drop whitespace from both ends. -/
def pyStrip (l : List Char) : List Char :=
  ((l.dropWhile isPyWs).reverse.dropWhile isPyWs).reverse

/-- Python `s.lower()` (ASCII case mapping). -/
def pyLower (l : List Char) : List Char := l.map Char.toLower

/-- Python `s.replace('-', ' ')`. -/
def dashToSpace (l : List Char) : List Char :=
  l.map (fun c => if c = '-' then ' ' else c)

/-- Python `s.replace(',', ' ')`. -/
def commaToSpace (l : List Char) : List Char :=
  l.map (fun c => if c = ',' then ' ' else c)

/-- Python `s.split()`: split on whitespace runs, discarding empty pieces. -/
def pyWhitespaceSplit (l : List Char) : List (List Char) :=
  (splitOnPred isPyWs l).filter (fun w => !w.isEmpty)

/-- Helper for substring search: does `nd` start `hay`? -/
def leadsIn : List Char → List Char → Bool
  | [], _ => true
  | _ :: _, [] => false
  | a :: as, b :: bs => a = b && leadsIn as bs

/-- Python `nd in hay` on strings: contiguous substring occurrence
(the empty needle occurs in everything, as in Python). -/
def containsSeq (nd : List Char) : List Char → Bool
  | [] => nd.isEmpty
  | c :: rest => leadsIn nd (c :: rest) || containsSeq nd rest

/-- Python `len(a_words & b_words) > 0`: the two word sets intersect. -/
def anyShared (a b : List (List Char)) : Bool :=
  a.any (fun w => b.contains w)

theorem foldl_if_count (p : α → Bool) (l : List α) :
    ∀ n : Nat, l.foldl (fun acc a => if p a then acc + 1 else acc) n = n + l.countP p := by
  induction l with
  | nil => intro n; simp
  | cons x xs ih =>
    intro n
    rw [List.foldl_cons]
    by_cases h : p x
    · rw [if_pos h, ih, List.countP_cons, if_pos h]
      omega
    · rw [if_neg h, ih, List.countP_cons, if_neg h]
      omega

/-- The comprehension `[t.strip().lower() for t in s.split(',')]` used for
both company interests (papers.py line 87) and paper subjects (line 105). -/
def split_tags (s : String) : List (List Char) :=
  (splitOnPred (fun c => c = ',') s.data).map (fun t => pyLower (pyStrip t))

theorem split_tags_example :
    split_tags "machine learning, nlp" = ["machine learning".data, "nlp".data] := by
  decide

theorem containsSeq_example : containsSeq "nlp".data "natural language processing".data = false := by
  decide

/-! ## Data model (models.py) -/

/-- Row of table `users` (models.py lines 8-18); only the columns the
scoring and paper routes read are modelled. -/
structure User where
  id : Nat
  field_of_research : Option String
  years_of_experience : Option Nat
  deriving DecidableEq

/-- Row of table `companies` (models.py lines 21-29). -/
structure Company where
  id : Nat
  research_interests : Option String
  deriving DecidableEq

/-- Enum `PaperStatus` (models.py lines 31-33). -/
inductive PaperStatus
  | draft
  | published
  deriving DecidableEq

/-- Row of table `papers` (models.py lines 35-45); timestamps are not
modelled (no claim mentions them). -/
structure Paper where
  id : Nat
  subject : Option String
  status : PaperStatus
  file_path : Option String
  download_count : Option Nat
  created_by : Nat
  deriving DecidableEq

/-- Row of table `paper_collaborators` (models.py lines 47-51). -/
structure PaperCollaborator where
  paper_id : Nat
  user_id : Nat
  deriving DecidableEq

/-- Row of table `paper_interests` (models.py lines 53-60); the stored
score columns are not read by any claimed code path and are omitted. -/
structure PaperInterest where
  paper_id : Nat
  company_id : Nat
  is_business_critical : Bool
  deriving DecidableEq

/-- The relational state the routes query. -/
structure DB where
  users : List User
  companies : List Company
  papers : List Paper
  paper_collaborators : List PaperCollaborator
  paper_interests : List PaperInterest
  deriving DecidableEq

/-! ## Business-relevance engine (papers.py lines 25-66) -/

/-- Count of `PaperInterest` rows on a paper (papers.py lines 38-42). -/
def total_interested_count (db : DB) (paper_id : Nat) : Nat :=
  (db.paper_interests.filter (fun pi => decide (pi.paper_id = paper_id))).length

/-- Count of `PaperInterest` rows on a paper with the business-critical
flag set (papers.py lines 45-52). -/
def business_critical_count (db : DB) (paper_id : Nat) : Nat :=
  (db.paper_interests.filter
    (fun pi => decide (pi.paper_id = paper_id) && pi.is_business_critical)).length

/-- `calculate_business_relevance_score` (papers.py lines 25-66).  The
`company_id` argument is accepted and ignored, as in the source. -/
def calculate_business_relevance_score (db : DB) (paper_id : Nat) (_company_id : Nat) : ℚ :=
  let total_interested := total_interested_count db paper_id
  let bc_count := business_critical_count db paper_id
  let popularity_score := min 0.4 (((total_interested : ℚ) / 10) * 0.4)
  let business_critical_score : ℚ :=
    if bc_count > 0 then min 0.6 (((bc_count : ℚ) / 3) * 0.6) else 0
  min 1 (popularity_score + business_critical_score)

/-! ## Relevance scoring engine (papers.py lines 69-188) -/

/-- The three-way tag test of the subject loop (papers.py lines 113-116):
substring containment in either direction, or overlap of the
hyphen-and-whitespace tokenized word sets. -/
def tagMatchB (interest subject : List Char) : Bool :=
  containsSeq interest subject || containsSeq subject interest ||
    anyShared (pyWhitespaceSplit (dashToSpace subject)) (pyWhitespaceSplit (dashToSpace interest))

/-- Subject component (papers.py lines 102-120): 0.5 as soon as some
subject tag matches some interest tag, else 0; the double loop breaks on
the first hit, so the outcome is an existence test.  The Python guard
`if paper.subject:` is false for both `None` and the empty string. -/
def subject_score (company_interests : List (List Char)) (subject : Option String) : ℚ :=
  match subject with
  | none => 0
  | some s =>
    if s.data.isEmpty then 0
    else
      let paper_subjects := split_tags s
      if paper_subjects.any (fun subj => company_interests.any (fun interest => tagMatchB interest subj))
      then 0.5 else 0

/-- Author test of the field loop (papers.py lines 126-138): the guard
`if author.field_of_research:` skips `None` and empty fields; the words of
the author's lowered field are taken with commas AND hyphens both turned
into spaces (line 129), unlike the subject test. -/
def author_matches (company_interests : List (List Char)) (a : User) : Bool :=
  match a.field_of_research with
  | none => false
  | some f =>
    if f.data.isEmpty then false
    else
      let author_field := pyLower f.data
      company_interests.any (fun interest =>
        containsSeq interest author_field || containsSeq author_field interest ||
          anyShared (pyWhitespaceSplit (dashToSpace (commaToSpace author_field)))
            (pyWhitespaceSplit (dashToSpace interest)))

/-- Author-field component (papers.py lines 122-140): matching authors
counted by the loop, divided by the author count, times 0.35; 0 when the
paper has no authors. -/
def field_score (company_interests : List (List Char)) (authors : List User) : ℚ :=
  if authors.isEmpty then 0
  else
    let field_matches : Nat :=
      authors.foldl (fun acc a => if author_matches company_interests a then acc + 1 else acc) 0
    ((field_matches : ℚ) / (authors.length : ℚ)) * 0.35

/-- Experience component (papers.py lines 142-148). -/
def experience_score (authors : List User) : ℚ :=
  if authors.isEmpty then 0
  else
    let avg_experience :=
      ((authors.map (fun a => ((a.years_of_experience.getD 0 : Nat) : ℚ))).sum) / (authors.length : ℚ)
    min 1 (avg_experience / 20) * 0.05

/-- The join of papers.py lines 95-100: users holding a collaborator row
on the paper. -/
def paper_authors (db : DB) (paper_id : Nat) : List User :=
  db.users.filter (fun u =>
    db.paper_collaborators.any (fun pc => decide (pc.paper_id = paper_id ∧ pc.user_id = u.id)))

/-- Base score before the affinity boost (papers.py line 151). -/
def relevance_components_score (db : DB) (paper_id : Nat)
    (company_interests : List (List Char)) (paper : Paper) : ℚ :=
  let authors := paper_authors db paper_id
  subject_score company_interests paper.subject +
    field_score company_interests authors + experience_score authors

/-- The boost query (papers.py lines 172-182): a distinct count of
interest rows of this company on a different paper joined to a
collaborator row whose user is among this paper's authors; the code only
tests the count against zero, i.e. existence of a joined row. -/
def boost_applies (db : DB) (paper_id company_id : Nat) (author_ids : List Nat) : Bool :=
  db.paper_interests.any (fun pi =>
    decide (pi.company_id = company_id ∧ pi.paper_id ≠ paper_id) &&
      db.paper_collaborators.any (fun pc =>
        decide (pc.paper_id = pi.paper_id) && author_ids.contains pc.user_id))

/-- `calculate_relevance_score` (papers.py lines 69-188).  The guards
`if not company or not company.research_interests:` and `if not paper:`
return 0; `not company.research_interests` is true for `None` and `""`. -/
def calculate_relevance_score (db : DB) (paper_id company_id : Nat) : ℚ :=
  match db.companies.find? (fun c => decide (c.id = company_id)) with
  | none => 0
  | some company =>
    match company.research_interests with
    | none => 0
    | some ri =>
      if ri.data.isEmpty then 0
      else
        let company_interests := split_tags ri
        match db.papers.find? (fun p => decide (p.id = paper_id)) with
        | none => 0
        | some paper =>
          let authors := paper_authors db paper_id
          let base_score := relevance_components_score db paper_id company_interests paper
          let boosted :=
            if !authors.isEmpty && boost_applies db paper_id company_id (authors.map (fun a => a.id))
            then base_score * 1.3 else base_score
          min 1 boosted

/-! ## Recommendations (papers.py lines 191-222) -/

/-- The scored list before sorting (papers.py lines 203-217): every
published paper scored, zero scores discarded. -/
def scored_published_papers (db : DB) (company_id : Nat) : List (Paper × ℚ) :=
  ((db.papers.filter (fun p => decide (p.status = PaperStatus.published))).map
      (fun p => (p, calculate_relevance_score db p.id company_id))).filter
    (fun x => decide (0 < x.2))

/-- `get_recommended_papers` (papers.py lines 191-222).  Python's
`list.sort(key=..., reverse=True)` is a stable descending sort, embedded
as a stable merge sort on the non-strict descending comparison. -/
def get_recommended_papers (db : DB) (company_id : Nat) (limit : Nat) : List (Paper × ℚ) :=
  ((scored_published_papers db company_id).mergeSort
      (fun a b => decide (b.2 ≤ a.2))).take limit

/-! ## Paper operations (papers.py lines 597-679, collaborators.py) -/

/-- The collaborator look-up used by the route guards
(e.g. papers.py line 605). -/
def is_collaborator (db : DB) (paper_id user_id : Nat) : Bool :=
  db.paper_collaborators.any (fun pc => decide (pc.paper_id = paper_id ∧ pc.user_id = user_id))

inductive PublishResult
  | success
  | not_collaborator
  deriving DecidableEq

/-- `publish_paper` (papers.py lines 597-621): any collaborator may
publish; the update unconditionally sets the status to `published`
(no check of the current status), then flashes success. -/
def publish_paper (db : DB) (paper_id user_id : Nat) : DB × PublishResult :=
  if is_collaborator db paper_id user_id then
    ({ db with
        papers := db.papers.map (fun p =>
          if p.id = paper_id then { p with status := PaperStatus.published } else p) },
      PublishResult.success)
  else (db, PublishResult.not_collaborator)

inductive RemoveCollaboratorResult
  | not_collaborator
  | creator_rejected
  | removed
  | row_not_found
  deriving DecidableEq

/-- The delete step of `remove_collaborator` (collaborators.py lines
84-91): delete the first matching row if it exists. -/
def remove_collab_row (db : DB) (paper_id target_id : Nat) : DB × RemoveCollaboratorResult :=
  if db.paper_collaborators.any
      (fun pc => decide (pc.paper_id = paper_id ∧ pc.user_id = target_id)) then
    ({ db with
        paper_collaborators := db.paper_collaborators.eraseP
          (fun pc => decide (pc.paper_id = paper_id ∧ pc.user_id = target_id)) },
      RemoveCollaboratorResult.removed)
  else (db, RemoveCollaboratorResult.row_not_found)

/-- `remove_collaborator` (collaborators.py lines 63-97): the actor must
be a collaborator; if the paper exists and the target is its creator the
request is rejected with no change; otherwise the matching row (if any)
is deleted. -/
def remove_collaborator (db : DB) (paper_id actor_id target_id : Nat) :
    DB × RemoveCollaboratorResult :=
  if is_collaborator db paper_id actor_id then
    match db.papers.find? (fun p => decide (p.id = paper_id)) with
    | some paper =>
      if paper.created_by = target_id then (db, RemoveCollaboratorResult.creator_rejected)
      else remove_collab_row db paper_id target_id
    | none => remove_collab_row db paper_id target_id
  else (db, RemoveCollaboratorResult.not_collaborator)

inductive UserType
  | author
  | company
  deriving DecidableEq

inductive DownloadResult
  | paper_not_found
  | access_denied
  | not_published
  | file_sent (bytes : List Nat)
  | fetch_error
  | no_file
  deriving DecidableEq

/-- The SQL `UPDATE papers SET download_count = COALESCE(download_count, 0) + 1
WHERE id = :paper_id` of papers.py lines 657-661, committed on its own. -/
def increment_download_count (db : DB) (paper_id : Nat) : DB :=
  { db with
      papers := db.papers.map (fun p =>
        if p.id = paper_id then { p with download_count := some (p.download_count.getD 0 + 1) }
        else p) }

/-- The file-serving tail of `download_paper` (papers.py lines 652-679):
for a truthy file reference, a company download first commits the counter
increment, then fetches the bytes from storage; a failed fetch is
reported as an error after the commit.  `storage` models the object
store: `none` is a fetch failure. -/
def download_file_step (db : DB) (storage : String → Option (List Nat)) (p : Paper)
    (user_type : UserType) : DB × DownloadResult :=
  match p.file_path with
  | none => (db, DownloadResult.no_file)
  | some path =>
    if path.data.isEmpty then (db, DownloadResult.no_file)
    else
      let db1 := if user_type = UserType.company then increment_download_count db p.id else db
      match storage path with
      | some bytes => (db1, DownloadResult.file_sent bytes)
      | none => (db1, DownloadResult.fetch_error)

/-- `download_paper` (papers.py lines 624-679). -/
def download_paper (db : DB) (storage : String → Option (List Nat)) (paper_id user_id : Nat)
    (user_type : UserType) : DB × DownloadResult :=
  match db.papers.find? (fun p => decide (p.id = paper_id)) with
  | none => (db, DownloadResult.paper_not_found)
  | some p =>
    match user_type with
    | UserType.author =>
      if is_collaborator db paper_id user_id then download_file_step db storage p UserType.author
      else (db, DownloadResult.access_denied)
    | UserType.company =>
      if p.status = PaperStatus.published then download_file_step db storage p UserType.company
      else (db, DownloadResult.not_published)

/-! ## Paper view, company branch (papers.py lines 502-513) -/

/-- Rounding to one decimal place, as in `round(x, 1)`.  (Python rounds
floats half-to-even; no input considered here hits a tie.) -/
def round1 (q : ℚ) : ℚ := ((round (q * 10) : ℤ) : ℚ) / 10

/-- The value `view_paper` stores under `paper['business_relevance_score']`
(papers.py line 512): the code computes `business_score` on line 510 and
then displays `round(relevance_score * 100, 1)` instead. -/
def view_paper_displayed_business_score (db : DB) (paper_id company_id : Nat) : ℚ :=
  let _business_score := calculate_business_relevance_score db paper_id company_id
  let relevance_score := calculate_relevance_score db paper_id company_id
  round1 (relevance_score * 100)

/-! ## Claim C1 -/

/-- The base score of `calculate_relevance_score` as a standalone value
(papers.py line 151): 0 along the function's early-return paths,
otherwise the sum of the three weighted components. -/
def relevance_base_score (db : DB) (paper_id company_id : Nat) : ℚ :=
  match db.companies.find? (fun c => decide (c.id = company_id)) with
  | none => 0
  | some company =>
    match company.research_interests with
    | none => 0
    | some ri =>
      if ri.data.isEmpty then 0
      else
        match db.papers.find? (fun p => decide (p.id = paper_id)) with
        | none => 0
        | some paper => relevance_components_score db paper_id (split_tags ri) paper

/-- The spec's wording of the boost condition: the company holds an
Interest link on some other published paper sharing at least one author
(collaborator) with this paper. -/
def SpecBoostCond (db : DB) (paper_id company_id : Nat) : Prop :=
  ∃ other ∈ db.papers, other.id ≠ paper_id ∧ other.status = PaperStatus.published ∧
    (∃ pi ∈ db.paper_interests, pi.company_id = company_id ∧ pi.paper_id = other.id) ∧
    ∃ pc ∈ db.paper_collaborators, pc.paper_id = other.id ∧
      ∃ a ∈ paper_authors db paper_id, a.id = pc.user_id

/-- Invariant maintained by the application: an Interest row always
points at an existing published paper.  `toggle_interest`
(interests.py lines 21-26) refuses to create an interest on anything but
a published paper, `publish_paper` never reverses the draft→published
transition, and no route deletes papers. -/
def InterestsOnPublished (db : DB) : Prop :=
  ∀ pi ∈ db.paper_interests,
    ∃ p ∈ db.papers, p.id = pi.paper_id ∧ p.status = PaperStatus.published

instance (db : DB) : Decidable (InterestsOnPublished db) := by
  unfold InterestsOnPublished
  infer_instance

instance (db : DB) (paper_id company_id : Nat) :
    Decidable (SpecBoostCond db paper_id company_id) := by
  unfold SpecBoostCond
  infer_instance

theorem subject_score_cases (ints : List (List Char)) (s : Option String) :
    subject_score ints s = 0 ∨ subject_score ints s = 0.5 := by
  unfold subject_score
  rcases s with _ | s
  · left; rfl
  · by_cases he : s.data.isEmpty = true
    · left; simp [he]
    · simp only [Bool.not_eq_true] at he
      simp only [he, Bool.false_eq_true, if_false]
      by_cases hm : (split_tags s).any
          (fun subj => ints.any (fun interest => tagMatchB interest subj)) = true
      · right; rw [if_pos hm]
      · left; rw [if_neg hm]

theorem field_score_bounds (ints : List (List Char)) (authors : List User) :
    0 ≤ field_score ints authors ∧ field_score ints authors ≤ 0.35 := by
  cases authors with
  | nil => constructor <;> norm_num [field_score]
  | cons a as =>
    unfold field_score
    simp only [List.isEmpty_cons, Bool.false_eq_true, if_false]
    rw [foldl_if_count, Nat.zero_add]
    have hk : ((a :: as).countP (author_matches ints) : ℚ) ≤ ((a :: as).length : ℚ) := by
      exact_mod_cast List.countP_le_length (p := author_matches ints)
    have hn : (0 : ℚ) < ((a :: as).length : ℚ) := by
      simp [List.length_cons]
      positivity
    have hdiv : ((a :: as).countP (author_matches ints) : ℚ) / ((a :: as).length : ℚ) ≤ 1 := by
      rw [div_le_one hn]
      exact hk
    constructor
    · positivity
    · calc ((a :: as).countP (author_matches ints) : ℚ) / ((a :: as).length : ℚ) * 0.35
          ≤ 1 * 0.35 := by
            apply mul_le_mul_of_nonneg_right hdiv
            norm_num
      _ = 0.35 := by norm_num

theorem experience_score_bounds (authors : List User) :
    0 ≤ experience_score authors ∧ experience_score authors ≤ 0.05 := by
  cases authors with
  | nil => constructor <;> norm_num [experience_score]
  | cons a as =>
    unfold experience_score
    simp only [List.isEmpty_cons, Bool.false_eq_true, if_false]
    have hsum : (0 : ℚ) ≤ ((a :: as).map (fun x => ((x.years_of_experience.getD 0 : Nat) : ℚ))).sum := by
      apply List.sum_nonneg
      intro q hq
      rcases List.mem_map.mp hq with ⟨x, -, rfl⟩
      positivity
    have hn : (0 : ℚ) < ((a :: as).length : ℚ) := by
      simp [List.length_cons]
      positivity
    have havg : (0 : ℚ) ≤
        ((a :: as).map (fun x => ((x.years_of_experience.getD 0 : Nat) : ℚ))).sum /
          ((a :: as).length : ℚ) := by positivity
    constructor
    · have : (0 : ℚ) ≤ min 1
          (((a :: as).map (fun x => ((x.years_of_experience.getD 0 : Nat) : ℚ))).sum /
            ((a :: as).length : ℚ) / 20) := by
        apply le_min (by norm_num)
        positivity
      nlinarith
    · have : min 1
          (((a :: as).map (fun x => ((x.years_of_experience.getD 0 : Nat) : ℚ))).sum /
            ((a :: as).length : ℚ) / 20) ≤ 1 := min_le_left _ _
      nlinarith

theorem components_score_bounds (db : DB) (paper_id : Nat)
    (ints : List (List Char)) (paper : Paper) :
    0 ≤ relevance_components_score db paper_id ints paper ∧
      relevance_components_score db paper_id ints paper ≤ 9 / 10 := by
  have key : relevance_components_score db paper_id ints paper =
      subject_score ints paper.subject + field_score ints (paper_authors db paper_id) +
        experience_score (paper_authors db paper_id) := rfl
  rw [key]
  have h2 := field_score_bounds ints (paper_authors db paper_id)
  have h3 := experience_score_bounds (paper_authors db paper_id)
  rcases subject_score_cases ints paper.subject with h1 | h1 <;> rw [h1] <;>
    constructor <;> linarith [h2.1, h2.2, h3.1, h3.2]

theorem base_ne_zero_lookups (db : DB) (paper_id company_id : Nat)
    (hbase : relevance_base_score db paper_id company_id ≠ 0) :
    ∃ company ri paper,
      db.companies.find? (fun c => decide (c.id = company_id)) = some company ∧
      company.research_interests = some ri ∧ ri.data.isEmpty = false ∧
      db.papers.find? (fun p => decide (p.id = paper_id)) = some paper := by
  unfold relevance_base_score at hbase
  rcases hc : db.companies.find? (fun c => decide (c.id = company_id)) with _ | company
  · simp only [hc] at hbase
    exact absurd rfl hbase
  simp only [hc] at hbase
  rcases hri : company.research_interests with _ | ri
  · simp only [hri] at hbase
    exact absurd rfl hbase
  simp only [hri] at hbase
  by_cases he : ri.data.isEmpty = true
  · rw [if_pos he] at hbase
    exact absurd rfl hbase
  rw [Bool.not_eq_true] at he
  rw [if_neg (by simp [he])] at hbase
  rcases hp : db.papers.find? (fun p => decide (p.id = paper_id)) with _ | paper
  · simp only [hp] at hbase
    exact absurd rfl hbase
  exact ⟨company, ri, paper, hc, hri, he, hp⟩

theorem base_score_eq (db : DB) (paper_id company_id : Nat) (company : Company)
    (ri : String) (paper : Paper)
    (hc : db.companies.find? (fun c => decide (c.id = company_id)) = some company)
    (hri : company.research_interests = some ri) (he : ri.data.isEmpty = false)
    (hp : db.papers.find? (fun p => decide (p.id = paper_id)) = some paper) :
    relevance_base_score db paper_id company_id =
      relevance_components_score db paper_id (split_tags ri) paper := by
  unfold relevance_base_score
  simp only [hc, hri, hp, he, Bool.false_eq_true, if_false]

theorem score_shape (db : DB) (paper_id company_id : Nat) (company : Company)
    (ri : String) (paper : Paper)
    (hc : db.companies.find? (fun c => decide (c.id = company_id)) = some company)
    (hri : company.research_interests = some ri) (he : ri.data.isEmpty = false)
    (hp : db.papers.find? (fun p => decide (p.id = paper_id)) = some paper) :
    calculate_relevance_score db paper_id company_id =
      min 1
        (if (!(paper_authors db paper_id).isEmpty) &&
            boost_applies db paper_id company_id ((paper_authors db paper_id).map (fun a => a.id))
          then relevance_base_score db paper_id company_id * 1.3
          else relevance_base_score db paper_id company_id) := by
  unfold calculate_relevance_score
  rw [base_score_eq db paper_id company_id company ri paper hc hri he hp]
  simp only [hc, hri, hp, he, Bool.false_eq_true, if_false]

theorem boost_iff_spec (db : DB) (paper_id company_id : Nat)
    (hinv : InterestsOnPublished db) :
    ((!(paper_authors db paper_id).isEmpty) &&
        boost_applies db paper_id company_id ((paper_authors db paper_id).map (fun a => a.id)))
        = true ↔
      SpecBoostCond db paper_id company_id := by
  constructor
  · intro h
    rcases Bool.and_eq_true_iff.mp h with ⟨-, hb⟩
    unfold boost_applies at hb
    rcases List.any_eq_true.mp hb with ⟨pi, hpi_mem, hpi⟩
    rcases Bool.and_eq_true_iff.mp hpi with ⟨hpi1, hpc⟩
    rcases decide_eq_true_eq.mp hpi1 with ⟨hcid, hne⟩
    rcases List.any_eq_true.mp hpc with ⟨pc, hpc_mem, hpc2⟩
    rcases Bool.and_eq_true_iff.mp hpc2 with ⟨hpc_pid, hpc_uid⟩
    have hpc_pid' : pc.paper_id = pi.paper_id := decide_eq_true_eq.mp hpc_pid
    have hpc_uid' : pc.user_id ∈ (paper_authors db paper_id).map (fun a => a.id) := by
      simpa [List.contains] using hpc_uid
    rcases List.mem_map.mp hpc_uid' with ⟨a, ha_mem, ha_id⟩
    rcases hinv pi hpi_mem with ⟨p', hp'_mem, hp'_id, hp'_pub⟩
    refine ⟨p', hp'_mem, ?_, hp'_pub, ⟨pi, hpi_mem, hcid, hp'_id.symm⟩,
      pc, hpc_mem, ?_, a, ha_mem, ha_id⟩
    · rw [hp'_id]
      exact hne
    · rw [hpc_pid', hp'_id]
  · rintro ⟨other, -, hne, -, ⟨pi, hpi_mem, hcid, hpid⟩, pc, hpc_mem, hpc_pid, a, ha_mem, ha_id⟩
    apply Bool.and_eq_true_iff.mpr
    constructor
    · have : paper_authors db paper_id ≠ [] := List.ne_nil_of_mem ha_mem
      simp [List.isEmpty_iff, this]
    · unfold boost_applies
      apply List.any_eq_true.mpr
      refine ⟨pi, hpi_mem, Bool.and_eq_true_iff.mpr ⟨by simp [hcid, hpid, hne], ?_⟩⟩
      apply List.any_eq_true.mpr
      refine ⟨pc, hpc_mem, Bool.and_eq_true_iff.mpr ⟨by simp [hpc_pid, hpid], ?_⟩⟩
      simp only [List.contains, List.elem_eq_mem, decide_eq_true_eq]
      exact List.mem_map.mpr ⟨a, ha_mem, ha_id⟩

theorem min_one_lt_boost {b : ℚ} (h0 : 0 < b) (h9 : b ≤ 9 / 10) :
    min 1 b < min 1 (b * 1.3) := by
  rw [min_eq_right (by linarith : b ≤ 1)]
  rcases le_or_lt (b * 1.3) 1 with h | h
  · rw [min_eq_right h]
    linarith
  · rw [min_eq_left h.le]
    linarith

/-- C1: when the base score is non-zero and every Interest row points at
an existing published paper (the invariant the routes maintain), the
relevance score is `min 1 (base * 1.3)` exactly when the company holds
an Interest link on some other published paper sharing at least one
author with this paper, and `min 1 base` otherwise. -/
theorem C1_affinity_boost (db : DB) (paper_id company_id : Nat)
    (hinv : InterestsOnPublished db)
    (hbase : relevance_base_score db paper_id company_id ≠ 0) :
    (calculate_relevance_score db paper_id company_id =
        min 1 (relevance_base_score db paper_id company_id * 1.3) ↔
      SpecBoostCond db paper_id company_id) ∧
    (¬ SpecBoostCond db paper_id company_id →
      calculate_relevance_score db paper_id company_id =
        min 1 (relevance_base_score db paper_id company_id)) := by
  obtain ⟨company, ri, paper, hc, hri, he, hp⟩ := base_ne_zero_lookups db paper_id company_id hbase
  have hshape := score_shape db paper_id company_id company ri paper hc hri he hp
  have hbeq := base_score_eq db paper_id company_id company ri paper hc hri he hp
  have hbounds := components_score_bounds db paper_id (split_tags ri) paper
  have hb0 : 0 < relevance_base_score db paper_id company_id := by
    rw [hbeq]
    rcases lt_or_eq_of_le hbounds.1 with h | h
    · exact h
    · exact absurd (hbeq.trans h.symm) hbase
  have hb9 : relevance_base_score db paper_id company_id ≤ 9 / 10 := hbeq ▸ hbounds.2
  have hgate := boost_iff_spec db paper_id company_id hinv
  by_cases hg : ((!(paper_authors db paper_id).isEmpty) &&
      boost_applies db paper_id company_id ((paper_authors db paper_id).map (fun a => a.id)))
      = true
  · rw [if_pos hg] at hshape
    have hspec := hgate.mp hg
    exact ⟨⟨fun _ => hspec, fun _ => hshape⟩, fun hns => absurd hspec hns⟩
  · rw [if_neg hg] at hshape
    have hnspec : ¬ SpecBoostCond db paper_id company_id := fun hs => hg (hgate.mpr hs)
    have hlt := min_one_lt_boost hb0 hb9
    constructor
    · constructor
      · intro hsc
        exfalso
        rw [hshape] at hsc
        exact absurd hsc (ne_of_lt hlt)
      · intro hs
        exact absurd hs hnspec
    · intro _
      exact hshape

def db_c1 : DB :=
  ⟨[⟨100, none, none⟩], [⟨10, some "machine learning"⟩],
    [⟨1, some "machine learning", PaperStatus.published, none, none, 100⟩,
      ⟨2, none, PaperStatus.published, none, none, 100⟩],
    [⟨1, 100⟩, ⟨2, 100⟩], [⟨2, 10, false⟩]⟩

theorem C1_witness :
    (calculate_relevance_score db_c1 1 10 = min 1 (relevance_base_score db_c1 1 10 * 1.3) ↔
      SpecBoostCond db_c1 1 10) ∧
    (¬ SpecBoostCond db_c1 1 10 →
      calculate_relevance_score db_c1 1 10 = min 1 (relevance_base_score db_c1 1 10)) :=
  C1_affinity_boost db_c1 1 10 (by decide) (by decide)

/-! ## Claim C2 -/

/-- The spec's three matching criteria as a proposition: substring
containment in either direction, or a non-empty intersection of the
whitespace-tokenized word sets with hyphens treated as separators. -/
def MatchesCriteria (interest subject : List Char) : Prop :=
  containsSeq interest subject = true ∨ containsSeq subject interest = true ∨
    ∃ w ∈ pyWhitespaceSplit (dashToSpace subject), w ∈ pyWhitespaceSplit (dashToSpace interest)

theorem tagMatchB_iff (interest subject : List Char) :
    tagMatchB interest subject = true ↔ MatchesCriteria interest subject := by
  unfold tagMatchB MatchesCriteria anyShared
  simp [List.any_eq_true, List.contains, or_assoc]

instance (interest subject : List Char) : Decidable (MatchesCriteria interest subject) :=
  decidable_of_iff _ (tagMatchB_iff interest subject)

/-- C2: for a non-empty subject string, the subject component is 0.5
exactly when some comma-separated subject tag matches some
comma-separated interest tag under the three criteria, and 0 otherwise
(never more than 0.5, however many tags match); and the spec's negative
example — interests "machine learning, nlp" against subject
"Natural Language Processing" — yields component 0. -/
theorem C2_subject_component (interests_raw subject_raw : String) (hs : subject_raw ≠ "") :
    (subject_score (split_tags interests_raw) (some subject_raw) =
      if ∃ t ∈ split_tags subject_raw, ∃ i ∈ split_tags interests_raw, MatchesCriteria i t
      then 0.5 else 0) ∧
    (subject_score (split_tags interests_raw) (some subject_raw) = 0.5 ∨
      subject_score (split_tags interests_raw) (some subject_raw) = 0) ∧
    subject_score (split_tags "machine learning, nlp") (some "Natural Language Processing") = 0 := by
  have hd : subject_raw.data.isEmpty = false := by
    cases h : subject_raw.data.isEmpty
    · rfl
    · exfalso
      apply hs
      apply String.ext
      simpa using h
  have main : subject_score (split_tags interests_raw) (some subject_raw) =
      if ∃ t ∈ split_tags subject_raw, ∃ i ∈ split_tags interests_raw, MatchesCriteria i t
      then 0.5 else 0 := by
    unfold subject_score
    simp only [hd, Bool.false_eq_true, if_false]
    have hiff : ((split_tags subject_raw).any
        (fun subj => (split_tags interests_raw).any
          (fun interest => tagMatchB interest subj)) = true) ↔
        ∃ t ∈ split_tags subject_raw, ∃ i ∈ split_tags interests_raw, MatchesCriteria i t := by
      simp [List.any_eq_true, tagMatchB_iff]
    exact if_congr hiff rfl rfl
  refine ⟨main, ?_, by decide⟩
  rw [main]
  by_cases h : ∃ t ∈ split_tags subject_raw, ∃ i ∈ split_tags interests_raw, MatchesCriteria i t
  · left
    rw [if_pos h]
  · right
    rw [if_neg h]

theorem C2_witness :
    (subject_score (split_tags "machine learning, nlp") (some "Natural Language Processing") =
      if ∃ t ∈ split_tags "Natural Language Processing",
          ∃ i ∈ split_tags "machine learning, nlp", MatchesCriteria i t
      then 0.5 else 0) ∧
    (subject_score (split_tags "machine learning, nlp") (some "Natural Language Processing") = 0.5 ∨
      subject_score (split_tags "machine learning, nlp") (some "Natural Language Processing") = 0) ∧
    subject_score (split_tags "machine learning, nlp") (some "Natural Language Processing") = 0 :=
  C2_subject_component "machine learning, nlp" "Natural Language Processing" (by decide)

/-! ## Claim C3 -/

/-- Follows the spec's words (the comparison definition for C3): an
author matches when their `field_of_research` matches some interest tag
under the same three-criteria test used for subject tags. -/
def spec_author_matches (interests : List (List Char)) (a : User) : Bool :=
  match a.field_of_research with
  | none => false
  | some f => interests.any (fun i => tagMatchB i (pyLower f.data))

/-- Follows the spec's words: author-field component = (matching authors
/ total authors) × 0.35, zero when there are no authors. -/
def spec_field_component (interests : List (List Char)) (authors : List User) : ℚ :=
  if authors.isEmpty then 0
  else ((authors.countP (spec_author_matches interests) : ℚ) / (authors.length : ℚ)) * 0.35

def u_comma : User := ⟨100, some "ab,cd", none⟩

/-- C3 counterexample: with company interests "cd efg" and a single
author whose field is "ab,cd", the code counts the author as a match
(line 129 turns the comma into a space, so the word "cd" overlaps) and
the component is 0.35, while the claim's formula — the same
three-criteria test as for subjects, where only hyphens are separators —
gives 0. -/
theorem C3_counterexample :
    field_score (split_tags "cd efg") [u_comma] = 7 / 20 ∧
    spec_field_component (split_tags "cd efg") [u_comma] = 0 ∧
    field_score (split_tags "cd efg") [u_comma] ≠
      spec_field_component (split_tags "cd efg") [u_comma] := by
  refine ⟨by decide, by decide, by decide⟩

/-- The amended author test as a proposition: the author has a non-empty
research field, and some interest tag matches the lowered field by
substring containment either way, or the word sets — commas and hyphens
both acting as separators within the author's field — intersect. -/
def AmendedAuthorMatch (interests : List (List Char)) (a : User) : Prop :=
  ∃ f, a.field_of_research = some f ∧ f ≠ "" ∧
    ∃ i ∈ interests,
      (containsSeq i (pyLower f.data) = true ∨ containsSeq (pyLower f.data) i = true ∨
        ∃ w ∈ pyWhitespaceSplit (dashToSpace (commaToSpace (pyLower f.data))),
          w ∈ pyWhitespaceSplit (dashToSpace i))

theorem author_matches_iff (interests : List (List Char)) (a : User) :
    author_matches interests a = true ↔ AmendedAuthorMatch interests a := by
  unfold author_matches AmendedAuthorMatch
  cases hf : a.field_of_research with
  | none => simp
  | some f =>
    by_cases he : f.data.isEmpty = true
    · have : f = "" := String.ext (by simpa using he)
      subst this
      simp
    · have hfe : f ≠ "" := by
        intro hc
        subst hc
        exact he rfl
      simp only [he, Bool.false_eq_true, if_false]
      constructor
      · intro h
        refine ⟨f, rfl, hfe, ?_⟩
        simpa [List.any_eq_true, anyShared, List.contains, or_assoc] using h
      · rintro ⟨f', hf', -, h⟩
        have hval : f = f' := Option.some.inj hf'
        subst hval
        simpa [List.any_eq_true, anyShared, List.contains, or_assoc] using h

instance (interests : List (List Char)) (a : User) : Decidable (AmendedAuthorMatch interests a) :=
  decidable_of_iff _ (author_matches_iff interests a)

/-- C3 amended: the author-field component equals (number of authors
with a non-empty field matching some interest tag under the
commas-as-separators variant of the three-criteria test / total
authors) × 0.35, and 0 for a paper with no authors. -/
theorem C3_field_component_amended (interests : List (List Char)) (authors : List User) :
    (authors = [] → field_score interests authors = 0) ∧
    (authors ≠ [] → field_score interests authors =
      ((authors.countP (fun a => decide (AmendedAuthorMatch interests a)) : ℚ) /
        (authors.length : ℚ)) * 0.35) := by
  constructor
  · intro h
    subst h
    rfl
  · intro h
    have he : authors.isEmpty = false := by
      cases authors
      · exact absurd rfl h
      · rfl
    unfold field_score
    rw [he]
    simp only [Bool.false_eq_true, if_false]
    rw [foldl_if_count, Nat.zero_add]
    have hcount : authors.countP (author_matches interests) =
        authors.countP (fun a => decide (AmendedAuthorMatch interests a)) := by
      apply List.countP_congr
      intro a _
      simp only [decide_eq_true_eq]
      exact author_matches_iff interests a
    rw [hcount]

theorem C3_witness :
    field_score (split_tags "cd efg") [u_comma] =
      (([u_comma].countP (fun a => decide (AmendedAuthorMatch (split_tags "cd efg") a)) : ℚ) /
        (([u_comma] : List User).length : ℚ)) * 0.35 :=
  (C3_field_component_amended (split_tags "cd efg") [u_comma]).2 (by decide)

/-! ## Claim C4 -/

/-- C4: for every company whose `research_interests` column is NULL or
empty and every paper, `calculate_relevance_score` returns the ordinary
value 0.0 (the function's first guard; no error path exists — the
function is total). -/
theorem C4_no_interests_scores_zero (db : DB) (paper_id company_id : Nat) (c : Company)
    (hc : db.companies.find? (fun x => decide (x.id = company_id)) = some c)
    (hni : c.research_interests = none ∨ c.research_interests = some "") :
    calculate_relevance_score db paper_id company_id = 0 := by
  unfold calculate_relevance_score
  rw [hc]
  rcases hni with h | h <;> simp [h]

def db_c4 : DB := ⟨[], [⟨10, none⟩], [⟨1, some "nlp", PaperStatus.published, none, none, 7⟩], [], []⟩

theorem C4_witness : calculate_relevance_score db_c4 1 10 = 0 :=
  C4_no_interests_scores_zero db_c4 1 10 ⟨10, none⟩ (by decide) (Or.inl rfl)

/-! ## Claim C5 -/

/-- C5: the recommendation list is the first `limit` elements of the
stable descending merge sort of the scored list.  Every entry is a
published paper of the table paired with its positive relevance score
(so no draft and no zero-scoring paper appears); the output is sorted
descending; the sort is a permutation of the scored list; every
published paper with positive score occurs in the sorted list; and for
each score value the entries carrying it appear in the same order as in
the scored list — the stability that makes ties keep their original
enumeration order. -/
theorem C5_recommendation_ranking (db : DB) (company_id limit : Nat) :
    (∀ x ∈ get_recommended_papers db company_id limit,
        x.1 ∈ db.papers ∧ x.1.status = PaperStatus.published ∧ 0 < x.2 ∧
        x.2 = calculate_relevance_score db x.1.id company_id) ∧
    (get_recommended_papers db company_id limit).Pairwise (fun a b => b.2 ≤ a.2) ∧
    get_recommended_papers db company_id limit =
      ((scored_published_papers db company_id).mergeSort
        (fun a b => decide (b.2 ≤ a.2))).take limit ∧
    ((scored_published_papers db company_id).mergeSort
        (fun a b => decide (b.2 ≤ a.2))).Perm (scored_published_papers db company_id) ∧
    (∀ p ∈ db.papers, p.status = PaperStatus.published →
      0 < calculate_relevance_score db p.id company_id →
      (p, calculate_relevance_score db p.id company_id) ∈
        (scored_published_papers db company_id).mergeSort (fun a b => decide (b.2 ≤ a.2))) ∧
    ∀ s : ℚ,
      ((scored_published_papers db company_id).mergeSort
          (fun a b => decide (b.2 ≤ a.2))).filter (fun x => decide (x.2 = s)) =
        (scored_published_papers db company_id).filter (fun x => decide (x.2 = s)) := by
  have htrans : ∀ (a b c : Paper × ℚ), decide (b.2 ≤ a.2) = true →
      decide (c.2 ≤ b.2) = true → decide (c.2 ≤ a.2) = true := by
    intro a b c h1 h2
    rw [decide_eq_true_eq] at h1 h2 ⊢
    exact le_trans h2 h1
  have htotal : ∀ (a b : Paper × ℚ), (decide (b.2 ≤ a.2) || decide (a.2 ≤ b.2)) = true := by
    intro a b
    rcases le_total a.2 b.2 with h | h <;> simp [h]
  have hmem_scored : ∀ x ∈ scored_published_papers db company_id,
      x.1 ∈ db.papers ∧ x.1.status = PaperStatus.published ∧ 0 < x.2 ∧
      x.2 = calculate_relevance_score db x.1.id company_id := by
    intro x hx
    unfold scored_published_papers at hx
    rcases List.mem_filter.mp hx with ⟨hx1, hx2⟩
    rcases List.mem_map.mp hx1 with ⟨p, hp_mem, rfl⟩
    rcases List.mem_filter.mp hp_mem with ⟨hp_in, hp_pub⟩
    exact ⟨hp_in, by simpa using hp_pub, by simpa using hx2, rfl⟩
  refine ⟨?_, ?_, rfl, List.mergeSort_perm _ _, ?_, ?_⟩
  · intro x hx
    exact hmem_scored x (List.mem_mergeSort.mp (List.mem_of_mem_take hx))
  · have hs := List.sorted_mergeSort htrans htotal (scored_published_papers db company_id)
    have hs2 : ((scored_published_papers db company_id).mergeSort
        (fun a b => decide (b.2 ≤ a.2))).Pairwise (fun a b => b.2 ≤ a.2) := by
      apply hs.imp
      intro a b h
      exact decide_eq_true_eq.mp h
    exact List.Pairwise.sublist (List.take_sublist _ _) hs2
  · intro p hp hpub hpos
    rw [List.mem_mergeSort]
    unfold scored_published_papers
    apply List.mem_filter.mpr
    refine ⟨List.mem_map.mpr ⟨p, List.mem_filter.mpr ⟨hp, by simp [hpub]⟩, rfl⟩, by simpa using hpos⟩
  · intro s
    have hpair : ((scored_published_papers db company_id).filter
        (fun x => decide (x.2 = s))).Pairwise (fun a b => decide (b.2 ≤ a.2) = true) := by
      apply List.pairwise_of_forall_mem_list
      intro a ha b hb
      have ha2 : a.2 = s := by simpa using (List.mem_filter.mp ha).2
      have hb2 : b.2 = s := by simpa using (List.mem_filter.mp hb).2
      simp [ha2, hb2]
    have hsub : List.Sublist
        ((scored_published_papers db company_id).filter (fun x => decide (x.2 = s)))
        ((scored_published_papers db company_id).mergeSort (fun a b => decide (b.2 ≤ a.2))) :=
      List.sublist_mergeSort htrans htotal hpair (List.filter_sublist _)
    have hself : ((scored_published_papers db company_id).filter
          (fun x => decide (x.2 = s))).filter (fun x => decide (x.2 = s)) =
        (scored_published_papers db company_id).filter (fun x => decide (x.2 = s)) := by
      apply List.filter_eq_self.mpr
      intro a ha
      exact (List.mem_filter.mp ha).2
    have hsub2 : List.Sublist
        ((scored_published_papers db company_id).filter (fun x => decide (x.2 = s)))
        (((scored_published_papers db company_id).mergeSort
          (fun a b => decide (b.2 ≤ a.2))).filter (fun x => decide (x.2 = s))) := by
      rw [← hself]
      exact List.Sublist.filter _ hsub
    have hlen : (((scored_published_papers db company_id).mergeSort
          (fun a b => decide (b.2 ≤ a.2))).filter (fun x => decide (x.2 = s))).length =
        ((scored_published_papers db company_id).filter (fun x => decide (x.2 = s))).length :=
      ((List.mergeSort_perm (scored_published_papers db company_id) _).filter _).length_eq
    exact (hsub2.eq_of_length hlen.symm).symm

def db_c5 : DB :=
  ⟨[⟨100, none, none⟩], [⟨10, some "machine learning"⟩],
    [⟨1, some "machine learning", PaperStatus.published, none, none, 100⟩,
      ⟨2, some "robotics", PaperStatus.published, none, none, 100⟩,
      ⟨3, some "machine learning", PaperStatus.draft, none, none, 100⟩],
    [⟨1, 100⟩, ⟨2, 100⟩, ⟨3, 100⟩], []⟩

theorem C5_witness :
    (∀ x ∈ get_recommended_papers db_c5 10 2,
        x.1 ∈ db_c5.papers ∧ x.1.status = PaperStatus.published ∧ 0 < x.2 ∧
        x.2 = calculate_relevance_score db_c5 x.1.id 10) ∧
    (get_recommended_papers db_c5 10 2).Pairwise (fun a b => b.2 ≤ a.2) ∧
    get_recommended_papers db_c5 10 2 =
      ((scored_published_papers db_c5 10).mergeSort (fun a b => decide (b.2 ≤ a.2))).take 2 ∧
    ((scored_published_papers db_c5 10).mergeSort
        (fun a b => decide (b.2 ≤ a.2))).Perm (scored_published_papers db_c5 10) ∧
    (∀ p ∈ db_c5.papers, p.status = PaperStatus.published →
      0 < calculate_relevance_score db_c5 p.id 10 →
      (p, calculate_relevance_score db_c5 p.id 10) ∈
        (scored_published_papers db_c5 10).mergeSort (fun a b => decide (b.2 ≤ a.2))) ∧
    ∀ s : ℚ,
      ((scored_published_papers db_c5 10).mergeSort
          (fun a b => decide (b.2 ≤ a.2))).filter (fun x => decide (x.2 = s)) =
        (scored_published_papers db_c5 10).filter (fun x => decide (x.2 = s)) :=
  C5_recommendation_ranking db_c5 10 2

/-! ## Claim C6 -/

/-- C6: the business-relevance score equals
`min 1 (min 0.4 (interested/10*0.4) + min 0.6 (critical/3*0.6))` — the
code's `if business_critical_count > 0` guard is redundant because the
second summand is 0 at count 0 — and the score saturates at exactly 1
once at least 10 companies are interested and at least 3 flagged
business-critical, whatever the counts beyond those thresholds. -/
theorem C6_business_formula (db : DB) (paper_id company_id : Nat) :
    calculate_business_relevance_score db paper_id company_id =
      min 1 (min 0.4 (((total_interested_count db paper_id : ℚ) / 10) * 0.4) +
        min 0.6 (((business_critical_count db paper_id : ℚ) / 3) * 0.6)) ∧
    (10 ≤ total_interested_count db paper_id → 3 ≤ business_critical_count db paper_id →
      calculate_business_relevance_score db paper_id company_id = 1) := by
  constructor
  · unfold calculate_business_relevance_score
    by_cases h : business_critical_count db paper_id > 0
    · simp [h]
    · have h0 : business_critical_count db paper_id = 0 := by omega
      rw [h0]
      norm_num
  · intro h10 h3
    have hti : (10 : ℚ) ≤ (total_interested_count db paper_id : ℚ) := by exact_mod_cast h10
    have hbc : (3 : ℚ) ≤ (business_critical_count db paper_id : ℚ) := by exact_mod_cast h3
    have h2p : business_critical_count db paper_id > 0 := by omega
    unfold calculate_business_relevance_score
    have e1 : min (0.4 : ℚ) (((total_interested_count db paper_id : ℚ) / 10) * 0.4) = 0.4 := by
      rw [min_eq_left]; linarith
    have e2 : min (0.6 : ℚ) (((business_critical_count db paper_id : ℚ) / 3) * 0.6) = 0.6 := by
      rw [min_eq_left]; linarith
    simp only [h2p, if_true, e1, e2]
    norm_num

def db_c6 : DB :=
  ⟨[], [], [], [],
    [⟨1, 1, true⟩, ⟨1, 2, true⟩, ⟨1, 3, true⟩, ⟨1, 4, false⟩, ⟨1, 5, false⟩,
      ⟨1, 6, false⟩, ⟨1, 7, false⟩, ⟨1, 8, false⟩, ⟨1, 9, false⟩, ⟨1, 10, false⟩]⟩

theorem C6_witness : calculate_business_relevance_score db_c6 1 0 = 1 :=
  (C6_business_formula db_c6 1 0).2 (by decide) (by decide)

/-! ## Claim C7 -/

def db_c7 : DB :=
  ⟨[], [⟨10, none⟩, ⟨20, none⟩], [⟨1, none, PaperStatus.published, none, none, 100⟩], [],
    [⟨1, 20, false⟩]⟩

/-- C7: at a state where company 10 has no interests (relevance score 0)
while another company holds an interest on the paper (business score
1/25 = 0.04), `view_paper` displays 0 under the business-relevance key:
the value shown is built from the relevance score, not from the
business-relevance score that line 510 computes and discards. -/
theorem C7_business_display_bug :
    calculate_business_relevance_score db_c7 1 10 = 1 / 25 ∧
    calculate_relevance_score db_c7 1 10 = 0 ∧
    view_paper_displayed_business_score db_c7 1 10 = 0 ∧
    view_paper_displayed_business_score db_c7 1 10 ≠
      round1 (calculate_business_relevance_score db_c7 1 10 * 100) := by
  refine ⟨by decide, by decide, by decide, by decide⟩

/-! ## Claim C8 -/

/-- C8: publishing an already-published paper by any collaborator
succeeds and leaves the database — in particular the paper's
`published` status — unchanged: the status update is idempotent and the
draft→published transition is never reversed by `publish_paper`. -/
theorem C8_publish_idempotent (db : DB) (paper_id user_id : Nat)
    (hcol : is_collaborator db paper_id user_id = true)
    (hpub : ∀ p ∈ db.papers, p.id = paper_id → p.status = PaperStatus.published) :
    (publish_paper db paper_id user_id).2 = PublishResult.success ∧
    (publish_paper db paper_id user_id).1 = db ∧
    ∀ p ∈ (publish_paper db paper_id user_id).1.papers,
      p.id = paper_id → p.status = PaperStatus.published := by
  have hmap : ∀ p ∈ db.papers,
      (if p.id = paper_id then { p with status := PaperStatus.published } else p) = p := by
    intro p hmem
    by_cases hid : p.id = paper_id
    · have hst := hpub p hmem hid
      cases p
      simp_all
    · simp [hid]
  have h1 : (publish_paper db paper_id user_id).1 = db := by
    unfold publish_paper
    rw [hcol]
    simp only [if_true]
    rw [List.map_congr_left hmap]
    simp
  refine ⟨?_, h1, ?_⟩
  · unfold publish_paper
    rw [hcol]
    simp
  · rw [h1]
    exact hpub

def db_c8 : DB :=
  ⟨[⟨100, none, none⟩], [], [⟨1, none, PaperStatus.published, none, none, 100⟩], [⟨1, 100⟩], []⟩

theorem C8_witness :
    (publish_paper db_c8 1 100).2 = PublishResult.success ∧
    (publish_paper db_c8 1 100).1 = db_c8 ∧
    ∀ p ∈ (publish_paper db_c8 1 100).1.papers, p.id = 1 → p.status = PaperStatus.published :=
  C8_publish_idempotent db_c8 1 100 (by decide) (by decide)

/-! ## Claim C9 -/

/-- C9: for every existing paper and every actor, asking to remove the
paper's creator from the collaborators is refused — either because the
actor is no collaborator, or by the explicit creator check — and the
database is left unchanged, so `creator ∈ collaborators` is preserved. -/
theorem C9_creator_removal_rejected (db : DB) (paper_id actor_id : Nat) (paper : Paper)
    (hp : db.papers.find? (fun p => decide (p.id = paper_id)) = some paper) :
    (remove_collaborator db paper_id actor_id paper.created_by).1 = db ∧
    ((remove_collaborator db paper_id actor_id paper.created_by).2 =
        RemoveCollaboratorResult.not_collaborator ∨
      (remove_collaborator db paper_id actor_id paper.created_by).2 =
        RemoveCollaboratorResult.creator_rejected) ∧
    (is_collaborator db paper_id paper.created_by = true →
      is_collaborator (remove_collaborator db paper_id actor_id paper.created_by).1
        paper_id paper.created_by = true) := by
  have key : remove_collaborator db paper_id actor_id paper.created_by =
      (db, RemoveCollaboratorResult.creator_rejected) ∨
      remove_collaborator db paper_id actor_id paper.created_by =
      (db, RemoveCollaboratorResult.not_collaborator) := by
    unfold remove_collaborator
    by_cases hcol : is_collaborator db paper_id actor_id = true
    · left
      rw [hp]
      simp [hcol]
    · right
      simp [hcol]
  rcases key with h | h <;> rw [h] <;> simp

def db_c9 : DB :=
  ⟨[⟨100, none, none⟩], [], [⟨1, none, PaperStatus.draft, none, none, 100⟩], [⟨1, 100⟩], []⟩

theorem C9_witness :
    (remove_collaborator db_c9 1 100 100).1 = db_c9 ∧
    ((remove_collaborator db_c9 1 100 100).2 = RemoveCollaboratorResult.not_collaborator ∨
      (remove_collaborator db_c9 1 100 100).2 = RemoveCollaboratorResult.creator_rejected) ∧
    (is_collaborator db_c9 1 100 = true →
      is_collaborator (remove_collaborator db_c9 1 100 100).1 1 100 = true) :=
  C9_creator_removal_rejected db_c9 1 100 ⟨1, none, PaperStatus.draft, none, none, 100⟩
    (by decide)

/-! ## Claim C10 -/

/-- C10: for a company download of a published paper holding a file
reference, when the storage fetch fails the route reports the error but
the download-counter increment — committed before the fetch — persists:
the resulting state is exactly `increment_download_count` applied to the
original state. -/
theorem C10_counter_committed_before_fetch (db : DB) (storage : String → Option (List Nat))
    (paper_id user_id : Nat) (p : Paper) (path : String)
    (hp : db.papers.find? (fun q => decide (q.id = paper_id)) = some p)
    (hpub : p.status = PaperStatus.published)
    (hpath : p.file_path = some path) (hne : path ≠ "")
    (hfail : storage path = none) :
    (download_paper db storage paper_id user_id UserType.company).2 =
      DownloadResult.fetch_error ∧
    (download_paper db storage paper_id user_id UserType.company).1 =
      increment_download_count db paper_id ∧
    (download_paper db storage paper_id user_id UserType.company).1.papers =
      db.papers.map (fun q =>
        if q.id = paper_id then { q with download_count := some (q.download_count.getD 0 + 1) }
        else q) := by
  have hid : p.id = paper_id := by
    have := List.find?_some hp
    simpa using this
  have hdata : path.data.isEmpty = false := by
    cases hd : path.data.isEmpty
    · rfl
    · exfalso
      apply hne
      apply String.ext
      simpa using hd
  have step : download_paper db storage paper_id user_id UserType.company =
      (increment_download_count db paper_id, DownloadResult.fetch_error) := by
    unfold download_paper
    rw [hp]
    simp only [hpub, if_pos rfl]
    unfold download_file_step
    rw [hpath]
    simp only [hdata, Bool.false_eq_true, if_false, if_pos rfl, hfail, hid]
    simp
  rw [step]
  exact ⟨rfl, rfl, rfl⟩

def db_c10 : DB :=
  ⟨[], [], [⟨1, none, PaperStatus.published, some "1.pdf", none, 100⟩], [], []⟩

theorem C10_witness :
    (download_paper db_c10 (fun _ => none) 1 20 UserType.company).2 =
      DownloadResult.fetch_error ∧
    (download_paper db_c10 (fun _ => none) 1 20 UserType.company).1 =
      increment_download_count db_c10 1 ∧
    (download_paper db_c10 (fun _ => none) 1 20 UserType.company).1.papers =
      db_c10.papers.map (fun q =>
        if q.id = 1 then { q with download_count := some (q.download_count.getD 0 + 1) }
        else q) :=
  C10_counter_committed_before_fetch db_c10 (fun _ => none) 1 20
    ⟨1, none, PaperStatus.published, some "1.pdf", none, 100⟩ "1.pdf"
    (by decide) rfl rfl (by decide) rfl

